import Mathlib

/-!
Verification of the typos-lsp Zed extension (`src/lib.rs`) against its
specification.  The Rust source is shallowly embedded: the pure helper
functions become Lean functions on `String`, and the stateful resolution
entry point `language_server_binary` becomes a function that threads an
explicit extension state and filesystem state and records the externally
observable calls (status notifications, the GitHub release query, the
download) in an event trace.
-/

/-- `zed_extension_api::Os`. -/
inductive Os
  | mac
  | linux
  | windows
deriving DecidableEq, Repr

/-- `zed_extension_api::Architecture` (`X8664` is the API's name for x86-64). -/
inductive Architecture
  | aarch64
  | x86
  | x8664
deriving DecidableEq, Repr

/-- `zed_extension_api::DownloadedFileType`. -/
inductive DownloadedFileType
  | gzip
  | gzipTar
  | uncompressed
  | zip
deriving DecidableEq, Repr

/-- `zed::LanguageServerInstallationStatus` (the variants used by the source). -/
inductive InstallationStatus
  | none
  | checkingForUpdate
  | downloading
  | failed (msg : String)
deriving DecidableEq, Repr

/-- One asset of a GitHub release, as consumed by the source
(`release.assets[i].name` / `.download_url`). -/
structure GithubReleaseAsset where
  name : String
  download_url : String
deriving DecidableEq, Repr

/-- The result of `zed::latest_github_release` as consumed by the source. -/
structure GithubRelease where
  version : String
  assets : List GithubReleaseAsset
deriving DecidableEq, Repr

/-- `struct TyposBinary { path, args }` from the source. -/
structure TyposBinary where
  path : String
  args : Option (List String)
deriving DecidableEq, Repr

/-- `struct TyposExtension { cached_binary_path }` from the source: the state
owned by the extension instance. -/
structure TyposExtension where
  cached_binary_path : Option String
deriving DecidableEq, Repr

/-- `a` is a prefix of `b` (Boolean, on character lists).  Used to model which
paths lie underneath a directory removed by `fs::remove_dir_all`. -/
def listStartsWith : List Char → List Char → Bool
  | [], _ => true
  | _ :: _, [] => false
  | a :: as, b :: bs => a == b && listStartsWith as bs

/-- The filesystem as observed by the source: `fs::metadata(p).is_file()`
(`isFile`), the names listed by `fs::read_dir(".")` (`rootEntries`),
and the possible failures of `read_dir` itself (`readDirFails`), of loading
one directory entry (`entryLoadFails`), and of `fs::remove_dir_all`
(`removeFails`); each failure carries or selects the io error message. -/
structure Fs where
  isFile : String → Bool
  rootEntries : List String
  readDirFails : Option String
  entryLoadFails : String → Option String
  removeFails : String → Bool

/-- `fs::remove_dir_all(entry.path())` on the working-directory entry `name`:
on failure the filesystem is unchanged (the caller ignores the error); on
success the entry disappears from the listing and every path equal to the
entry or strictly underneath it (`name ++ "/" ++ ...`) stops being a file. -/
def removeDirAll (fs : Fs) (name : String) : Fs :=
  if fs.removeFails name then fs
  else
    { fs with
      rootEntries := fs.rootEntries.filter (fun x => !(x == name)),
      isFile := fun p =>
        if p == name || listStartsWith (name.data ++ ['/']) p.data then false
        else fs.isFile p }

/-- The `for entry in entries` loop of `clean_other_installations`, iterating
over the snapshot `l` of listed entry names: a failing entry load aborts with
`Err`, an entry named `version_to_keep` is skipped, every other entry gets a
best-effort `remove_dir_all` whose failure is discarded (`.ok()`). -/
def cleanLoop (version_to_keep : String) : List String → Fs → Fs × Option String
  | [], fs => (fs, none)
  | e :: rest, fs =>
    match fs.entryLoadFails e with
    | some err => (fs, some ("failed to load directory entry " ++ err))
    | none =>
      if e == version_to_keep then cleanLoop version_to_keep rest fs
      else cleanLoop version_to_keep rest (removeDirAll fs e)

/-- `TyposExtension::clean_other_installations`: list the working directory
(failure is propagated), then remove every entry not named
`version_to_keep` (individual removal failures are discarded). -/
def clean_other_installations (version_to_keep : String) (fs : Fs) : Fs × Option String :=
  match fs.readDirFails with
  | some err => (fs, some ("failed to list working directory " ++ err))
  | none => cleanLoop version_to_keep fs.rootEntries fs

/-- `TyposExtension::binary_release_name`: the expected GitHub release asset
name, `format!("typos-lsp-{version}-{arch}-{os}.{ext}", ...)`. -/
def binary_release_name (version : String) (platform : Os) (architecture : Architecture) :
    String :=
  "typos-lsp-" ++ version ++ "-" ++
    (match architecture with
      | Architecture.aarch64 => "aarch64"
      | Architecture.x86 => "x86_64"
      | Architecture.x8664 => "x86_64") ++ "-" ++
    (match platform with
      | Os.mac => "apple-darwin"
      | Os.linux => "unknown-linux-gnu"
      | Os.windows => "pc-windows-msvc") ++ "." ++
    (match platform with
      | Os.windows => "zip"
      | _ => "tar.gz")

/-- `TyposExtension::binary_path_within_archive`: the path of the binary inside
the extracted archive (`Path::join` uses `/` in the extension's environment).
The inner `os` match of the source is reproduced verbatim even though only its
windows arm is reachable. -/
def binary_path_within_archive (platform : Os) (architecture : Architecture) : String :=
  match platform with
  | Os.windows =>
    "target" ++ "/" ++
      ((match architecture with
        | Architecture.aarch64 => "aarch64"
        | Architecture.x86 => "x86_64"
        | Architecture.x8664 => "x86_64") ++ "-" ++
       (match platform with
        | Os.mac => "apple-darwin"
        | Os.linux => "unknown-linux-gnu"
        | Os.windows => "pc-windows-msvc")) ++
      "/" ++ "release" ++ "/" ++ "typos-lsp.exe"
  | _ => "typos-lsp"

/-- Rust `{:?}` formatting of one character of a string: `"` and `\` are
escaped (control characters, which no string built by this extension
contains, would additionally be escaped). -/
def rustDebugChar (c : Char) : List Char :=
  if c == '"' then ['\\', '"']
  else if c == '\\' then ['\\', '\\']
  else [c]

/-- Rust `{:?}` formatting of a string: quoted, with characters escaped. -/
def rustDebugStr (s : String) : String :=
  "\"" ++ String.mk (s.data.flatMap rustDebugChar) ++ "\""

/-- The archive kind selected by platform in `language_server_binary`
(the local `file_kind` binding of the source). -/
def file_kind (platform : Os) : DownloadedFileType :=
  match platform with
  | Os.windows => DownloadedFileType.zip
  | _ => DownloadedFileType.gzipTar

/-- Externally observable calls made by `language_server_binary`, in order. -/
inductive Event
  | setStatus (s : InstallationStatus)
  | queriedLatestRelease (repo : String)
  | downloadedFile (url : String) (dest : String) (kind : DownloadedFileType)
  | cleaned (version_to_keep : String)
deriving DecidableEq, Repr

/-- The external collaborators of one `language_server_binary` call:
`worktree.which("typos-lsp")`, `zed::current_platform()`, the outcome of
`zed::latest_github_release`, and the `zed::download_file` primitive
(which transforms the filesystem and may fail with a message). -/
structure Env where
  which_typos_lsp : Option String
  platform : Os
  architecture : Architecture
  releaseResult : Except String GithubRelease
  downloadFile : String → String → DownloadedFileType → Fs → Fs × Option String

/-- The outcome of one `language_server_binary` call: the returned value or
error, the extension state and filesystem afterwards, and the event trace. -/
structure LSBOutcome where
  result : Except String TyposBinary
  state : TyposExtension
  fs : Fs
  events : List Event

/-- The cached-path check of the source (`if let Some(path) = &self.cached_binary_path
{ if fs::metadata(path).is_file() { ... } }`): the cached path, when one is
recorded and still names a file. -/
def cacheLookup (self : TyposExtension) (fs : Fs) : Option String :=
  match self.cached_binary_path with
  | some path => if fs.isFile path then some path else none
  | none => none

/-- `TyposExtension::language_server_binary`: PATH lookup, then cache check,
then provisioning (status notification, release query, asset match, skip or
download, cleanup, cache update), embedded with explicit state and events. -/
def language_server_binary (env : Env) (self : TyposExtension) (fs : Fs) : LSBOutcome :=
  match env.which_typos_lsp with
  | some path => ⟨Except.ok ⟨path, some []⟩, self, fs, []⟩
  | none =>
    match cacheLookup self fs with
    | some path => ⟨Except.ok ⟨path, some []⟩, self, fs, []⟩
    | none =>
      let ev1 := [Event.setStatus InstallationStatus.checkingForUpdate,
                  Event.queriedLatestRelease "tekumara/typos-lsp"]
      match env.releaseResult with
      | Except.error e => ⟨Except.error e, self, fs, ev1⟩
      | Except.ok release =>
        let version := release.version
        let asset_name := binary_release_name version env.platform env.architecture
        match release.assets.find? (fun asset => asset.name == asset_name) with
        | none =>
          ⟨Except.error ("no asset found matching " ++ rustDebugStr asset_name), self, fs, ev1⟩
        | some asset =>
          let version_dir := "typos-lsp-" ++ version
          let binary_path :=
            version_dir ++ "/" ++ binary_path_within_archive env.platform env.architecture
          if fs.isFile binary_path then
            ⟨Except.ok ⟨binary_path, some []⟩, ⟨some binary_path⟩, fs, ev1⟩
          else
            let ev2 := ev1 ++ [Event.setStatus InstallationStatus.downloading]
            match env.downloadFile asset.download_url version_dir (file_kind env.platform) fs with
            | (fs2, some e) => ⟨Except.error ("failed to download file: " ++ e), self, fs2, ev2⟩
            | (fs2, none) =>
              let ev3 := ev2 ++ [Event.downloadedFile asset.download_url version_dir
                                   (file_kind env.platform),
                                 Event.cleaned version_dir]
              match clean_other_installations version_dir fs2 with
              | (fs3, some e) => ⟨Except.error e, self, fs3, ev3⟩
              | (fs3, none) =>
                ⟨Except.ok ⟨binary_path, some []⟩, ⟨some binary_path⟩, fs3, ev3⟩

/-- A structured settings value (`zed_extension_api::serde_json::Value`);
`Value::default()` is `null`. -/
inductive JsonValue
  | null
  | bool (b : Bool)
  | num (n : Int)
  | str (s : String)
  | arr (elems : List JsonValue)
  | obj (fields : List (String × JsonValue))

/-- `zed::settings::LspSettings`, restricted to the fields the source reads. -/
structure LspSettings where
  initialization_options : Option JsonValue
  settings : Option JsonValue

/-- `language_server_initialization_options`, as a function of the outcome of
`LspSettings::for_worktree(server_id, worktree)`. -/
def language_server_initialization_options (forWorktree : Except String LspSettings) :
    Except String (Option JsonValue) :=
  Except.ok (some (((forWorktree.toOption).bind
    (fun lsp_settings => lsp_settings.initialization_options)).getD JsonValue.null))

/-- `language_server_workspace_configuration`, as a function of the outcome of
`LspSettings::for_worktree(server_id, worktree)`. -/
def language_server_workspace_configuration (forWorktree : Except String LspSettings) :
    Except String (Option JsonValue) :=
  Except.ok (some (((forWorktree.toOption).bind
    (fun lsp_settings => lsp_settings.settings)).getD JsonValue.null))

/-! ## Specification-side definitions (section 4.2 of the spec), for the
refinement claims C1 and C2. -/

/-- Modelled from the spec: the architecture token table of section 4.2. -/
def specArchToken : Architecture → String
  | Architecture.aarch64 => "aarch64"
  | Architecture.x86 => "x86_64"
  | Architecture.x8664 => "x86_64"

/-- Modelled from the spec: the OS token table of section 4.2. -/
def specOsToken : Os → String
  | Os.mac => "apple-darwin"
  | Os.linux => "unknown-linux-gnu"
  | Os.windows => "pc-windows-msvc"

/-- Modelled from the spec: the file-extension table of section 4.2. -/
def specFileExt : Os → String
  | Os.mac => "tar.gz"
  | Os.linux => "tar.gz"
  | Os.windows => "zip"

/-- Modelled from the spec: `expectedAssetName`, the concatenation pattern
`typos-lsp-{version}-{architectureToken}-{osToken}.{extension}`. -/
def expectedAssetName (version : String) (platform : Os) (architecture : Architecture) :
    String :=
  "typos-lsp-" ++ version ++ "-" ++ specArchToken architecture ++ "-" ++
    specOsToken platform ++ "." ++ specFileExt platform

/-- Claim C1: for every version, operating system and architecture,
`binary_release_name` returns exactly the concatenation
`typos-lsp-{version}-{architectureToken}-{osToken}.{extension}` with the
spec's token tables; x86 and x86_64 yield identical names; and
`("v0.1.23", mac, aarch64)` yields
`"typos-lsp-v0.1.23-aarch64-apple-darwin.tar.gz"`. -/
theorem binary_release_name_matches_spec :
    (∀ (version : String) (platform : Os) (architecture : Architecture),
      binary_release_name version platform architecture =
        expectedAssetName version platform architecture) ∧
    (∀ (version : String) (platform : Os),
      binary_release_name version platform Architecture.x86 =
        binary_release_name version platform Architecture.x8664) ∧
    binary_release_name "v0.1.23" Os.mac Architecture.aarch64 =
      "typos-lsp-v0.1.23-aarch64-apple-darwin.tar.gz" := by
  refine ⟨fun version platform architecture => ?_, fun version platform => ?_, by decide⟩
  · cases platform <;> cases architecture <;> rfl
  · cases platform <;> rfl

/-- Claim C2: `binary_path_within_archive` returns `"typos-lsp"` for mac and
linux regardless of architecture, and
`target/{architectureToken}-{osToken}/release/typos-lsp.exe` for windows with
the same token tables; in particular windows/x86_64 yields
`"target/x86_64-pc-windows-msvc/release/typos-lsp.exe"`. -/
theorem binary_path_within_archive_matches_spec :
    (∀ architecture : Architecture,
      binary_path_within_archive Os.mac architecture = "typos-lsp") ∧
    (∀ architecture : Architecture,
      binary_path_within_archive Os.linux architecture = "typos-lsp") ∧
    (∀ architecture : Architecture,
      binary_path_within_archive Os.windows architecture =
        "target/" ++ specArchToken architecture ++ "-" ++ specOsToken Os.windows ++
          "/release/typos-lsp.exe") ∧
    binary_path_within_archive Os.windows Architecture.x8664 =
      "target/x86_64-pc-windows-msvc/release/typos-lsp.exe" := by
  refine ⟨fun architecture => rfl, fun architecture => rfl,
    fun architecture => ?_, by decide⟩
  cases architecture <;> rfl

/-! ## Branch equations for `language_server_binary` -/

theorem lsb_which_eq (env : Env) (self : TyposExtension) (fs : Fs) (path : String)
    (hw : env.which_typos_lsp = some path) :
    language_server_binary env self fs = ⟨Except.ok ⟨path, some []⟩, self, fs, []⟩ := by
  simp only [language_server_binary, hw]

theorem lsb_cache_hit_eq (env : Env) (self : TyposExtension) (fs : Fs) (path : String)
    (hw : env.which_typos_lsp = none) (hc : cacheLookup self fs = some path) :
    language_server_binary env self fs = ⟨Except.ok ⟨path, some []⟩, self, fs, []⟩ := by
  simp only [language_server_binary, hw, hc]

theorem lsb_release_error_eq (env : Env) (self : TyposExtension) (fs : Fs) (e : String)
    (hw : env.which_typos_lsp = none) (hm : cacheLookup self fs = none)
    (hr : env.releaseResult = Except.error e) :
    language_server_binary env self fs =
      ⟨Except.error e, self, fs,
       [Event.setStatus InstallationStatus.checkingForUpdate,
        Event.queriedLatestRelease "tekumara/typos-lsp"]⟩ := by
  simp only [language_server_binary, hw, hm, hr]

theorem lsb_no_asset_eq (env : Env) (self : TyposExtension) (fs : Fs) (rel : GithubRelease)
    (hw : env.which_typos_lsp = none) (hm : cacheLookup self fs = none)
    (hr : env.releaseResult = Except.ok rel)
    (hf : rel.assets.find? (fun asset =>
        asset.name == binary_release_name rel.version env.platform env.architecture) = none) :
    language_server_binary env self fs =
      ⟨Except.error ("no asset found matching " ++
          rustDebugStr (binary_release_name rel.version env.platform env.architecture)),
       self, fs,
       [Event.setStatus InstallationStatus.checkingForUpdate,
        Event.queriedLatestRelease "tekumara/typos-lsp"]⟩ := by
  simp only [language_server_binary, hw, hm, hr, hf]

theorem lsb_skip_eq (env : Env) (self : TyposExtension) (fs : Fs) (rel : GithubRelease)
    (asset : GithubReleaseAsset)
    (hw : env.which_typos_lsp = none) (hm : cacheLookup self fs = none)
    (hr : env.releaseResult = Except.ok rel)
    (hf : rel.assets.find? (fun asset =>
        asset.name == binary_release_name rel.version env.platform env.architecture) =
        some asset)
    (hfile : fs.isFile ("typos-lsp-" ++ rel.version ++ "/" ++
        binary_path_within_archive env.platform env.architecture) = true) :
    language_server_binary env self fs =
      ⟨Except.ok ⟨"typos-lsp-" ++ rel.version ++ "/" ++
          binary_path_within_archive env.platform env.architecture, some []⟩,
       ⟨some ("typos-lsp-" ++ rel.version ++ "/" ++
          binary_path_within_archive env.platform env.architecture)⟩, fs,
       [Event.setStatus InstallationStatus.checkingForUpdate,
        Event.queriedLatestRelease "tekumara/typos-lsp"]⟩ := by
  simp only [language_server_binary, hw, hm, hr, hf, hfile, if_true]

theorem lsb_download_error_eq (env : Env) (self : TyposExtension) (fs : Fs)
    (rel : GithubRelease) (asset : GithubReleaseAsset) (fs2 : Fs) (e : String)
    (hw : env.which_typos_lsp = none) (hm : cacheLookup self fs = none)
    (hr : env.releaseResult = Except.ok rel)
    (hf : rel.assets.find? (fun asset =>
        asset.name == binary_release_name rel.version env.platform env.architecture) =
        some asset)
    (hfile : fs.isFile ("typos-lsp-" ++ rel.version ++ "/" ++
        binary_path_within_archive env.platform env.architecture) = false)
    (hd : env.downloadFile asset.download_url ("typos-lsp-" ++ rel.version)
        (file_kind env.platform) fs = (fs2, some e)) :
    language_server_binary env self fs =
      ⟨Except.error ("failed to download file: " ++ e), self, fs2,
       [Event.setStatus InstallationStatus.checkingForUpdate,
        Event.queriedLatestRelease "tekumara/typos-lsp",
        Event.setStatus InstallationStatus.downloading]⟩ := by
  simp only [language_server_binary, hw, hm, hr, hf, hfile, hd, Bool.false_eq_true,
    if_false, List.cons_append, List.nil_append]

theorem lsb_clean_error_eq (env : Env) (self : TyposExtension) (fs : Fs)
    (rel : GithubRelease) (asset : GithubReleaseAsset) (fs2 fs3 : Fs) (e : String)
    (hw : env.which_typos_lsp = none) (hm : cacheLookup self fs = none)
    (hr : env.releaseResult = Except.ok rel)
    (hf : rel.assets.find? (fun asset =>
        asset.name == binary_release_name rel.version env.platform env.architecture) =
        some asset)
    (hfile : fs.isFile ("typos-lsp-" ++ rel.version ++ "/" ++
        binary_path_within_archive env.platform env.architecture) = false)
    (hd : env.downloadFile asset.download_url ("typos-lsp-" ++ rel.version)
        (file_kind env.platform) fs = (fs2, none))
    (hc : clean_other_installations ("typos-lsp-" ++ rel.version) fs2 = (fs3, some e)) :
    language_server_binary env self fs =
      ⟨Except.error e, self, fs3,
       [Event.setStatus InstallationStatus.checkingForUpdate,
        Event.queriedLatestRelease "tekumara/typos-lsp",
        Event.setStatus InstallationStatus.downloading,
        Event.downloadedFile asset.download_url ("typos-lsp-" ++ rel.version)
          (file_kind env.platform),
        Event.cleaned ("typos-lsp-" ++ rel.version)]⟩ := by
  simp only [language_server_binary, hw, hm, hr, hf, hfile, hd, hc, Bool.false_eq_true,
    if_false, List.cons_append, List.nil_append]

theorem lsb_full_success_eq (env : Env) (self : TyposExtension) (fs : Fs)
    (rel : GithubRelease) (asset : GithubReleaseAsset) (fs2 fs3 : Fs)
    (hw : env.which_typos_lsp = none) (hm : cacheLookup self fs = none)
    (hr : env.releaseResult = Except.ok rel)
    (hf : rel.assets.find? (fun asset =>
        asset.name == binary_release_name rel.version env.platform env.architecture) =
        some asset)
    (hfile : fs.isFile ("typos-lsp-" ++ rel.version ++ "/" ++
        binary_path_within_archive env.platform env.architecture) = false)
    (hd : env.downloadFile asset.download_url ("typos-lsp-" ++ rel.version)
        (file_kind env.platform) fs = (fs2, none))
    (hc : clean_other_installations ("typos-lsp-" ++ rel.version) fs2 = (fs3, none)) :
    language_server_binary env self fs =
      ⟨Except.ok ⟨"typos-lsp-" ++ rel.version ++ "/" ++
          binary_path_within_archive env.platform env.architecture, some []⟩,
       ⟨some ("typos-lsp-" ++ rel.version ++ "/" ++
          binary_path_within_archive env.platform env.architecture)⟩, fs3,
       [Event.setStatus InstallationStatus.checkingForUpdate,
        Event.queriedLatestRelease "tekumara/typos-lsp",
        Event.setStatus InstallationStatus.downloading,
        Event.downloadedFile asset.download_url ("typos-lsp-" ++ rel.version)
          (file_kind env.platform),
        Event.cleaned ("typos-lsp-" ++ rel.version)]⟩ := by
  simp only [language_server_binary, hw, hm, hr, hf, hfile, hd, hc, Bool.false_eq_true,
    if_false, List.cons_append, List.nil_append]

theorem cacheLookup_some (self : TyposExtension) (fs : Fs) (path : String)
    (hc : self.cached_binary_path = some path) (hf : fs.isFile path = true) :
    cacheLookup self fs = some path := by
  simp only [cacheLookup, hc, hf, if_true]

/-- Claim C3: the resolution entry point tries PATH lookup, then cache
validity, then provisioning, in that order, the first success winning: a
PATH hit is returned immediately with empty launch arguments and nothing
else happens; otherwise a recorded cached path that still names a file is
returned unchanged; only otherwise does the call enter provisioning
(observable as the checking-for-update notification followed by the
release query). -/
theorem language_server_binary_resolution_order :
    (∀ (env : Env) (self : TyposExtension) (fs : Fs) (path : String),
      env.which_typos_lsp = some path →
      language_server_binary env self fs = ⟨Except.ok ⟨path, some []⟩, self, fs, []⟩) ∧
    (∀ (env : Env) (self : TyposExtension) (fs : Fs) (path : String),
      env.which_typos_lsp = none → self.cached_binary_path = some path →
      fs.isFile path = true →
      language_server_binary env self fs = ⟨Except.ok ⟨path, some []⟩, self, fs, []⟩) ∧
    (∀ (env : Env) (self : TyposExtension) (fs : Fs),
      env.which_typos_lsp = none → cacheLookup self fs = none →
      ∃ rest, (language_server_binary env self fs).events =
        Event.setStatus InstallationStatus.checkingForUpdate ::
          Event.queriedLatestRelease "tekumara/typos-lsp" :: rest) := by
  refine ⟨fun env self fs path hw => lsb_which_eq env self fs path hw,
    fun env self fs path hw hc hf =>
      lsb_cache_hit_eq env self fs path hw (cacheLookup_some self fs path hc hf),
    fun env self fs hw hm => ?_⟩
  cases hr : env.releaseResult with
  | error e =>
    rw [lsb_release_error_eq env self fs e hw hm hr]
    exact ⟨[], rfl⟩
  | ok rel =>
    cases hf : rel.assets.find? (fun asset =>
        asset.name == binary_release_name rel.version env.platform env.architecture) with
    | none =>
      rw [lsb_no_asset_eq env self fs rel hw hm hr hf]
      exact ⟨[], rfl⟩
    | some asset =>
      cases hfile : fs.isFile ("typos-lsp-" ++ rel.version ++ "/" ++
          binary_path_within_archive env.platform env.architecture) with
      | true =>
        rw [lsb_skip_eq env self fs rel asset hw hm hr hf hfile]
        exact ⟨[], rfl⟩
      | false =>
        cases hd : env.downloadFile asset.download_url ("typos-lsp-" ++ rel.version)
            (file_kind env.platform) fs with
        | mk fs2 r =>
          cases r with
          | some e =>
            rw [lsb_download_error_eq env self fs rel asset fs2 e hw hm hr hf hfile hd]
            exact ⟨_, rfl⟩
          | none =>
            cases hc : clean_other_installations ("typos-lsp-" ++ rel.version) fs2 with
            | mk fs3 r2 =>
              cases r2 with
              | some e =>
                rw [lsb_clean_error_eq env self fs rel asset fs2 fs3 e hw hm hr hf hfile hd hc]
                exact ⟨_, rfl⟩
              | none =>
                rw [lsb_full_success_eq env self fs rel asset fs2 fs3 hw hm hr hf hfile hd hc]
                exact ⟨_, rfl⟩

/-- A filesystem with no files and an empty working directory. -/
def fsEmpty : Fs := ⟨fun _ => false, [], none, fun _ => none, fun _ => false⟩

def envC3a : Env :=
  ⟨some "/usr/bin/typos-lsp", Os.mac, Architecture.aarch64, Except.error "offline",
   fun _ _ _ f => (f, some "offline")⟩

def envC3b : Env :=
  ⟨none, Os.mac, Architecture.aarch64, Except.error "offline",
   fun _ _ _ f => (f, some "offline")⟩

def selfC3 : TyposExtension := ⟨some "/opt/typos-lsp"⟩

def fsC3 : Fs := ⟨fun p => p == "/opt/typos-lsp", [], none, fun _ => none, fun _ => false⟩

theorem language_server_binary_resolution_order_witness :
    language_server_binary envC3a selfC3 fsC3 =
      ⟨Except.ok ⟨"/usr/bin/typos-lsp", some []⟩, selfC3, fsC3, []⟩ ∧
    language_server_binary envC3b selfC3 fsC3 =
      ⟨Except.ok ⟨"/opt/typos-lsp", some []⟩, selfC3, fsC3, []⟩ ∧
    (∃ rest, (language_server_binary envC3b ⟨none⟩ fsC3).events =
      Event.setStatus InstallationStatus.checkingForUpdate ::
        Event.queriedLatestRelease "tekumara/typos-lsp" :: rest) :=
  ⟨language_server_binary_resolution_order.1 envC3a selfC3 fsC3 "/usr/bin/typos-lsp" rfl,
   language_server_binary_resolution_order.2.1 envC3b selfC3 fsC3 "/opt/typos-lsp" rfl rfl rfl,
   language_server_binary_resolution_order.2.2 envC3b ⟨none⟩ fsC3 rfl rfl⟩

/-- Claim C6: when the release has no asset whose name equals the computed
expected name, resolution fails with an error naming the expected asset
name (in Rust `{:?}` quoting), the extension state and the filesystem are
returned unchanged, and no download happens (the trace holds only the
checking-for-update notification and the release query). -/
theorem no_matching_asset_error (env : Env) (self : TyposExtension) (fs : Fs)
    (rel : GithubRelease)
    (hw : env.which_typos_lsp = none) (hm : cacheLookup self fs = none)
    (hr : env.releaseResult = Except.ok rel)
    (hnone : ∀ asset ∈ rel.assets,
      asset.name ≠ binary_release_name rel.version env.platform env.architecture) :
    language_server_binary env self fs =
      ⟨Except.error ("no asset found matching " ++
          rustDebugStr (binary_release_name rel.version env.platform env.architecture)),
       self, fs,
       [Event.setStatus InstallationStatus.checkingForUpdate,
        Event.queriedLatestRelease "tekumara/typos-lsp"]⟩ :=
  lsb_no_asset_eq env self fs rel hw hm hr
    (List.find?_eq_none.mpr (fun asset ha => by
      simp only [beq_iff_eq]
      exact hnone asset ha))

def envC6 : Env :=
  ⟨none, Os.mac, Architecture.aarch64,
   Except.ok ⟨"v0.1.23", [⟨"typos-lsp-v0.1.23-x86_64-apple-darwin.tar.gz", "https://u"⟩]⟩,
   fun _ _ _ f => (f, some "unreachable")⟩

theorem no_matching_asset_error_witness :
    language_server_binary envC6 ⟨none⟩ fsEmpty =
      ⟨Except.error
         "no asset found matching \"typos-lsp-v0.1.23-aarch64-apple-darwin.tar.gz\"",
       ⟨none⟩, fsEmpty,
       [Event.setStatus InstallationStatus.checkingForUpdate,
        Event.queriedLatestRelease "tekumara/typos-lsp"]⟩ :=
  no_matching_asset_error envC6 ⟨none⟩ fsEmpty
    ⟨"v0.1.23", [⟨"typos-lsp-v0.1.23-x86_64-apple-darwin.tar.gz", "https://u"⟩]⟩
    rfl rfl rfl (by decide)

def envC5 : Env :=
  ⟨none, Os.mac, Architecture.aarch64,
   Except.ok ⟨"v0.1.23", [⟨"typos-lsp-v0.1.23-aarch64-apple-darwin.tar.gz", "https://u"⟩]⟩,
   fun _ _ _ f => (f, some "unreachable")⟩

def fsC5 : Fs :=
  ⟨fun p => p == "typos-lsp-v0.1.23/typos-lsp", ["typos-lsp-v0.1.23"], none,
   fun _ => none, fun _ => false⟩

/-- Claim C5 counterexample: a concrete provisioning cycle in which the binary
file is already present at the computed path, yet the upstream release index
is queried (the query necessarily precedes the existence check, because the
computed path depends on the queried version).  The download is indeed
skipped, the call succeeds, and the trace nevertheless contains the release
query — refuting "no remote release query … occurs when the binary file is
already present on disk". -/
theorem release_query_despite_present_binary :
    fsC5.isFile ("typos-lsp-v0.1.23/" ++
      binary_path_within_archive Os.mac Architecture.aarch64) = true ∧
    (language_server_binary envC5 ⟨none⟩ fsC5).result =
      Except.ok ⟨"typos-lsp-v0.1.23/typos-lsp", some []⟩ ∧
    (language_server_binary envC5 ⟨none⟩ fsC5).events =
      [Event.setStatus InstallationStatus.checkingForUpdate,
       Event.queriedLatestRelease "tekumara/typos-lsp"] ∧
    Event.queriedLatestRelease "tekumara/typos-lsp" ∈
      (language_server_binary envC5 ⟨none⟩ fsC5).events := by
  refine ⟨rfl, rfl, rfl, ?_⟩
  rw [show (language_server_binary envC5 ⟨none⟩ fsC5).events =
      [Event.setStatus InstallationStatus.checkingForUpdate,
       Event.queriedLatestRelease "tekumara/typos-lsp"] from rfl]
  exact List.mem_cons_of_mem _ (List.mem_cons_self _ _)

/-- Claim C5 (amended): within one provisioning cycle, if a file already
exists at the computed binary path then the download and the cleanup are
skipped entirely and the filesystem is unchanged (only the cached path is
updated); the upstream release index, however, is queried on every
provisioning cycle — before the existence check, since the computed path
depends on the queried version — so only the download, not the release
query, is avoided when the binary is already present. -/
theorem skip_download_when_binary_present (env : Env) (self : TyposExtension) (fs : Fs)
    (rel : GithubRelease) (asset : GithubReleaseAsset)
    (hw : env.which_typos_lsp = none) (hm : cacheLookup self fs = none)
    (hr : env.releaseResult = Except.ok rel)
    (hf : rel.assets.find? (fun asset =>
        asset.name == binary_release_name rel.version env.platform env.architecture) =
        some asset)
    (hfile : fs.isFile ("typos-lsp-" ++ rel.version ++ "/" ++
        binary_path_within_archive env.platform env.architecture) = true) :
    language_server_binary env self fs =
      ⟨Except.ok ⟨"typos-lsp-" ++ rel.version ++ "/" ++
          binary_path_within_archive env.platform env.architecture, some []⟩,
       ⟨some ("typos-lsp-" ++ rel.version ++ "/" ++
          binary_path_within_archive env.platform env.architecture)⟩, fs,
       [Event.setStatus InstallationStatus.checkingForUpdate,
        Event.queriedLatestRelease "tekumara/typos-lsp"]⟩ :=
  lsb_skip_eq env self fs rel asset hw hm hr hf hfile

theorem skip_download_when_binary_present_witness :
    language_server_binary envC5 ⟨none⟩ fsC5 =
      ⟨Except.ok ⟨"typos-lsp-v0.1.23/typos-lsp", some []⟩,
       ⟨some "typos-lsp-v0.1.23/typos-lsp"⟩, fsC5,
       [Event.setStatus InstallationStatus.checkingForUpdate,
        Event.queriedLatestRelease "tekumara/typos-lsp"]⟩ :=
  skip_download_when_binary_present envC5 ⟨none⟩ fsC5
    ⟨"v0.1.23", [⟨"typos-lsp-v0.1.23-aarch64-apple-darwin.tar.gz", "https://u"⟩]⟩
    ⟨"typos-lsp-v0.1.23-aarch64-apple-darwin.tar.gz", "https://u"⟩
    rfl rfl rfl rfl rfl

/-! ## Lemmas about the cleanup loop -/

theorem removeDirAll_entryLoadFails (fs : Fs) (name : String) :
    (removeDirAll fs name).entryLoadFails = fs.entryLoadFails := by
  unfold removeDirAll; split <;> rfl

theorem removeDirAll_removeFails (fs : Fs) (name : String) :
    (removeDirAll fs name).removeFails = fs.removeFails := by
  unfold removeDirAll; split <;> rfl

theorem removeDirAll_rootEntries (fs : Fs) (name : String)
    (h : fs.removeFails name = false) :
    (removeDirAll fs name).rootEntries = fs.rootEntries.filter (fun x => !(x == name)) := by
  unfold removeDirAll
  rw [h]
  rfl

theorem cleanLoop_no_error (keep : String) (l : List String) (fs : Fs)
    (hload : ∀ e ∈ l, fs.entryLoadFails e = none) :
    (cleanLoop keep l fs).2 = none := by
  induction l generalizing fs with
  | nil => rfl
  | cons e rest ih =>
    have he := hload e (List.mem_cons_self e rest)
    have hrest : ∀ x ∈ rest, fs.entryLoadFails x = none :=
      fun x hx => hload x (List.mem_cons_of_mem e hx)
    simp only [cleanLoop, he]
    by_cases hk : (e == keep) = true
    · rw [if_pos hk]
      exact ih fs hrest
    · rw [if_neg hk]
      refine ih (removeDirAll fs e) (fun x hx => ?_)
      rw [removeDirAll_entryLoadFails]
      exact hrest x hx

theorem cleanLoop_entries (keep : String) (l : List String) (fs : Fs)
    (hload : ∀ e ∈ l, fs.entryLoadFails e = none)
    (hrm : ∀ e ∈ l, fs.removeFails e = false) :
    (cleanLoop keep l fs).1.rootEntries =
      fs.rootEntries.filter (fun x => x == keep || !(decide (x ∈ l))) := by
  induction l generalizing fs with
  | nil =>
    refine ((List.filter_eq_self).mpr (fun a _ => ?_)).symm
    simp
  | cons e rest ih =>
    have he := hload e (List.mem_cons_self e rest)
    have hrestl : ∀ x ∈ rest, fs.entryLoadFails x = none :=
      fun x hx => hload x (List.mem_cons_of_mem e hx)
    have hrestr : ∀ x ∈ rest, fs.removeFails x = false :=
      fun x hx => hrm x (List.mem_cons_of_mem e hx)
    simp only [cleanLoop, he]
    by_cases hk : (e == keep) = true
    · rw [if_pos hk]
      rw [ih fs hrestl hrestr]
      refine List.filter_congr (fun x _ => ?_)
      have hek : e = keep := by simpa [beq_iff_eq] using hk
      by_cases hx : x = e
      · subst hx; subst hek; simp
      · simp [List.mem_cons, hx]
    · rw [if_neg hk]
      have hrme : fs.removeFails e = false := hrm e (List.mem_cons_self e rest)
      rw [ih (removeDirAll fs e)
        (fun x hx => by rw [removeDirAll_entryLoadFails]; exact hrestl x hx)
        (fun x hx => by rw [removeDirAll_removeFails]; exact hrestr x hx)]
      rw [removeDirAll_rootEntries fs e hrme, List.filter_filter]
      refine List.filter_congr (fun x _ => ?_)
      have hek : ¬ e = keep := by simpa [beq_iff_eq] using hk
      by_cases hx : x = e
      · subst hx
        simp [beq_iff_eq, hek]
      · simp [beq_iff_eq, List.mem_cons, hx]

theorem clean_no_error (keep : String) (fs : Fs)
    (h1 : fs.readDirFails = none)
    (h2 : ∀ e ∈ fs.rootEntries, fs.entryLoadFails e = none) :
    (clean_other_installations keep fs).2 = none := by
  simp only [clean_other_installations, h1]
  exact cleanLoop_no_error keep fs.rootEntries fs h2

theorem clean_entries (keep : String) (fs : Fs)
    (h1 : fs.readDirFails = none)
    (h2 : ∀ e ∈ fs.rootEntries, fs.entryLoadFails e = none)
    (h3 : ∀ e ∈ fs.rootEntries, fs.removeFails e = false) :
    (clean_other_installations keep fs).1.rootEntries =
      fs.rootEntries.filter (fun x => x == keep) := by
  simp only [clean_other_installations, h1]
  rw [cleanLoop_entries keep fs.rootEntries fs h2 h3]
  refine List.filter_congr (fun x hx => ?_)
  simp [hx]

theorem clean_entries_single (keep : String) (fs : Fs)
    (h1 : fs.readDirFails = none)
    (h2 : ∀ e ∈ fs.rootEntries, fs.entryLoadFails e = none)
    (h3 : ∀ e ∈ fs.rootEntries, fs.removeFails e = false)
    (h4 : fs.rootEntries.count keep = 1) :
    (clean_other_installations keep fs).1.rootEntries = [keep] := by
  rw [clean_entries keep fs h1 h2 h3, List.filter_beq, h4]
  rfl

/-- Claim C8: the cleanup step has two error policies: a failed removal of an
individual stale entry is fully suppressed (no error even when every removal
fails), while a failure to list the working directory, or to load a directory
entry during iteration, is returned as an error — and such a cleanup error is
propagated out of the provisioning cycle as the result of
`language_server_binary`. -/
theorem clean_other_installations_error_policy :
    (∀ (keep : String) (fs : Fs), fs.readDirFails = none →
      (∀ e ∈ fs.rootEntries, fs.entryLoadFails e = none) →
      (clean_other_installations keep fs).2 = none) ∧
    (∀ (keep err : String) (fs : Fs), fs.readDirFails = some err →
      clean_other_installations keep fs =
        (fs, some ("failed to list working directory " ++ err))) ∧
    (∀ (keep err e : String) (rest : List String) (fs : Fs),
      fs.readDirFails = none → fs.rootEntries = e :: rest →
      fs.entryLoadFails e = some err →
      (clean_other_installations keep fs).2 =
        some ("failed to load directory entry " ++ err)) ∧
    (∀ (env : Env) (self : TyposExtension) (fs : Fs) (rel : GithubRelease)
       (asset : GithubReleaseAsset) (fs2 fs3 : Fs) (e : String),
      env.which_typos_lsp = none → cacheLookup self fs = none →
      env.releaseResult = Except.ok rel →
      rel.assets.find? (fun asset =>
        asset.name == binary_release_name rel.version env.platform env.architecture) =
        some asset →
      fs.isFile ("typos-lsp-" ++ rel.version ++ "/" ++
        binary_path_within_archive env.platform env.architecture) = false →
      env.downloadFile asset.download_url ("typos-lsp-" ++ rel.version)
        (file_kind env.platform) fs = (fs2, none) →
      clean_other_installations ("typos-lsp-" ++ rel.version) fs2 = (fs3, some e) →
      (language_server_binary env self fs).result = Except.error e) := by
  refine ⟨clean_no_error, fun keep err fs h => ?_, fun keep err e rest fs h1 h2 h3 => ?_,
    fun env self fs rel asset fs2 fs3 e hw hm hr hf hfile hd hc => ?_⟩
  · simp only [clean_other_installations, h]
  · simp only [clean_other_installations, h1, h2, cleanLoop, h3]
  · rw [lsb_clean_error_eq env self fs rel asset fs2 fs3 e hw hm hr hf hfile hd hc]

def fsC8a : Fs := ⟨fun _ => false, ["old-dir", "keep-me"], none, fun _ => none, fun _ => true⟩

def fsC8b : Fs := ⟨fun _ => false, [], some "io fail", fun _ => none, fun _ => false⟩

def fsC8c : Fs :=
  ⟨fun _ => false, ["bad"], none, fun e => if e == "bad" then some "io2" else none,
   fun _ => false⟩

def envC8 : Env :=
  ⟨none, Os.mac, Architecture.aarch64,
   Except.ok ⟨"v0.1.23", [⟨"typos-lsp-v0.1.23-aarch64-apple-darwin.tar.gz", "https://u"⟩]⟩,
   fun _ _ _ f => (⟨f.isFile, f.rootEntries, some "io3", f.entryLoadFails, f.removeFails⟩,
     none)⟩

def fs2C8 : Fs :=
  ⟨fsEmpty.isFile, fsEmpty.rootEntries, some "io3", fsEmpty.entryLoadFails,
   fsEmpty.removeFails⟩

theorem clean_other_installations_error_policy_witness :
    (clean_other_installations "keep-me" fsC8a).2 = none ∧
    clean_other_installations "k" fsC8b =
      (fsC8b, some "failed to list working directory io fail") ∧
    (clean_other_installations "k" fsC8c).2 = some "failed to load directory entry io2" ∧
    (language_server_binary envC8 ⟨none⟩ fsEmpty).result =
      Except.error "failed to list working directory io3" :=
  ⟨clean_other_installations_error_policy.1 "keep-me" fsC8a rfl (fun _ _ => rfl),
   clean_other_installations_error_policy.2.1 "k" "io fail" fsC8b rfl,
   clean_other_installations_error_policy.2.2.1 "k" "io2" "bad" [] fsC8c rfl rfl rfl,
   clean_other_installations_error_policy.2.2.2 envC8 ⟨none⟩ fsEmpty
     ⟨"v0.1.23", [⟨"typos-lsp-v0.1.23-aarch64-apple-darwin.tar.gz", "https://u"⟩]⟩
     ⟨"typos-lsp-v0.1.23-aarch64-apple-darwin.tar.gz", "https://u"⟩
     fs2C8 fs2C8 "failed to list working directory io3"
     rfl rfl rfl rfl rfl rfl rfl⟩

/-- Claim C7: after a successful provisioning cycle that downloaded and
extracted a new version (with the external listing and removals succeeding,
and the new version directory listed exactly once), exactly one entry remains
in the working directory and it is the just-installed version directory; and
the cleanup step runs only after a confirmed download: whenever the trace
contains a cleanup event, it is the last event and is directly preceded by a
successful download into the kept directory. -/
theorem cleanup_invariant_after_provisioning :
    (∀ (env : Env) (self : TyposExtension) (fs : Fs) (rel : GithubRelease)
       (asset : GithubReleaseAsset) (fs2 : Fs),
      env.which_typos_lsp = none → cacheLookup self fs = none →
      env.releaseResult = Except.ok rel →
      rel.assets.find? (fun asset =>
        asset.name == binary_release_name rel.version env.platform env.architecture) =
        some asset →
      fs.isFile ("typos-lsp-" ++ rel.version ++ "/" ++
        binary_path_within_archive env.platform env.architecture) = false →
      env.downloadFile asset.download_url ("typos-lsp-" ++ rel.version)
        (file_kind env.platform) fs = (fs2, none) →
      fs2.readDirFails = none →
      (∀ e ∈ fs2.rootEntries, fs2.entryLoadFails e = none) →
      (∀ e ∈ fs2.rootEntries, fs2.removeFails e = false) →
      fs2.rootEntries.count ("typos-lsp-" ++ rel.version) = 1 →
      (language_server_binary env self fs).result =
        Except.ok ⟨"typos-lsp-" ++ rel.version ++ "/" ++
          binary_path_within_archive env.platform env.architecture, some []⟩ ∧
      (language_server_binary env self fs).fs.rootEntries =
        ["typos-lsp-" ++ rel.version] ∧
      (language_server_binary env self fs).events =
        [Event.setStatus InstallationStatus.checkingForUpdate,
         Event.queriedLatestRelease "tekumara/typos-lsp",
         Event.setStatus InstallationStatus.downloading,
         Event.downloadedFile asset.download_url ("typos-lsp-" ++ rel.version)
           (file_kind env.platform),
         Event.cleaned ("typos-lsp-" ++ rel.version)]) ∧
    (∀ (env : Env) (self : TyposExtension) (fs : Fs) (keep : String),
      Event.cleaned keep ∈ (language_server_binary env self fs).events →
      ∃ url kind, (language_server_binary env self fs).events =
        [Event.setStatus InstallationStatus.checkingForUpdate,
         Event.queriedLatestRelease "tekumara/typos-lsp",
         Event.setStatus InstallationStatus.downloading,
         Event.downloadedFile url keep kind,
         Event.cleaned keep]) := by
  constructor
  · intro env self fs rel asset fs2 hw hm hr hf hfile hd h1 h2 h3 h4
    have hcl : (clean_other_installations ("typos-lsp-" ++ rel.version) fs2).2 = none :=
      clean_no_error _ fs2 h1 h2
    cases hc : clean_other_installations ("typos-lsp-" ++ rel.version) fs2 with
    | mk fs3 r =>
      rw [hc] at hcl
      cases hcl
      rw [lsb_full_success_eq env self fs rel asset fs2 fs3 hw hm hr hf hfile hd hc]
      refine ⟨rfl, ?_, rfl⟩
      have := clean_entries_single ("typos-lsp-" ++ rel.version) fs2 h1 h2 h3 h4
      rw [hc] at this
      exact this
  · intro env self fs keep hmem
    cases hw : env.which_typos_lsp with
    | some path =>
      rw [lsb_which_eq env self fs path hw] at hmem
      simp at hmem
    | none =>
      cases hm : cacheLookup self fs with
      | some path =>
        rw [lsb_cache_hit_eq env self fs path hw hm] at hmem
        simp at hmem
      | none =>
        cases hr : env.releaseResult with
        | error e =>
          rw [lsb_release_error_eq env self fs e hw hm hr] at hmem
          simp at hmem
        | ok rel =>
          cases hf : rel.assets.find? (fun asset =>
              asset.name == binary_release_name rel.version env.platform
                env.architecture) with
          | none =>
            rw [lsb_no_asset_eq env self fs rel hw hm hr hf] at hmem
            simp at hmem
          | some asset =>
            cases hfile : fs.isFile ("typos-lsp-" ++ rel.version ++ "/" ++
                binary_path_within_archive env.platform env.architecture) with
            | true =>
              rw [lsb_skip_eq env self fs rel asset hw hm hr hf hfile] at hmem
              simp at hmem
            | false =>
              cases hd : env.downloadFile asset.download_url ("typos-lsp-" ++ rel.version)
                  (file_kind env.platform) fs with
              | mk fs2 r =>
                cases r with
                | some e =>
                  rw [lsb_download_error_eq env self fs rel asset fs2 e
                    hw hm hr hf hfile hd] at hmem
                  simp at hmem
                | none =>
                  cases hc : clean_other_installations ("typos-lsp-" ++ rel.version) fs2 with
                  | mk fs3 r2 =>
                    cases r2 with
                    | some e =>
                      rw [lsb_clean_error_eq env self fs rel asset fs2 fs3 e
                        hw hm hr hf hfile hd hc] at hmem ⊢
                      simp at hmem
                      subst hmem
                      exact ⟨asset.download_url, file_kind env.platform, rfl⟩
                    | none =>
                      rw [lsb_full_success_eq env self fs rel asset fs2 fs3
                        hw hm hr hf hfile hd hc] at hmem ⊢
                      simp at hmem
                      subst hmem
                      exact ⟨asset.download_url, file_kind env.platform, rfl⟩

def envC7 : Env :=
  ⟨none, Os.mac, Architecture.aarch64,
   Except.ok ⟨"v0.1.23", [⟨"typos-lsp-v0.1.23-aarch64-apple-darwin.tar.gz", "https://u"⟩]⟩,
   fun _ _ _ _ =>
     (⟨fun p => p == "typos-lsp-v0.1.23/typos-lsp",
       ["typos-lsp-v0.1.23", "typos-lsp-v0.0.9"], none, fun _ => none, fun _ => false⟩,
      none)⟩

theorem cleanup_invariant_after_provisioning_witness :
    ((language_server_binary envC7 ⟨none⟩ fsEmpty).result =
        Except.ok ⟨"typos-lsp-v0.1.23/typos-lsp", some []⟩ ∧
      (language_server_binary envC7 ⟨none⟩ fsEmpty).fs.rootEntries =
        ["typos-lsp-v0.1.23"] ∧
      (language_server_binary envC7 ⟨none⟩ fsEmpty).events =
        [Event.setStatus InstallationStatus.checkingForUpdate,
         Event.queriedLatestRelease "tekumara/typos-lsp",
         Event.setStatus InstallationStatus.downloading,
         Event.downloadedFile "https://u" "typos-lsp-v0.1.23" DownloadedFileType.gzipTar,
         Event.cleaned "typos-lsp-v0.1.23"]) ∧
    (∃ url kind, (language_server_binary envC7 ⟨none⟩ fsEmpty).events =
        [Event.setStatus InstallationStatus.checkingForUpdate,
         Event.queriedLatestRelease "tekumara/typos-lsp",
         Event.setStatus InstallationStatus.downloading,
         Event.downloadedFile url "typos-lsp-v0.1.23" kind,
         Event.cleaned "typos-lsp-v0.1.23"]) :=
  ⟨cleanup_invariant_after_provisioning.1 envC7 ⟨none⟩ fsEmpty
     ⟨"v0.1.23", [⟨"typos-lsp-v0.1.23-aarch64-apple-darwin.tar.gz", "https://u"⟩]⟩
     ⟨"typos-lsp-v0.1.23-aarch64-apple-darwin.tar.gz", "https://u"⟩
     ⟨fun p => p == "typos-lsp-v0.1.23/typos-lsp",
      ["typos-lsp-v0.1.23", "typos-lsp-v0.0.9"], none, fun _ => none, fun _ => false⟩
     rfl rfl rfl rfl rfl rfl rfl (fun _ _ => rfl) (fun _ _ => rfl) (by decide),
   cleanup_invariant_after_provisioning.2 envC7 ⟨none⟩ fsEmpty "typos-lsp-v0.1.23"
     (by decide)⟩

/-! ## Preservation of the installed binary across the cleanup step -/

theorem string_data_inj {a b : String} (h : a.data = b.data) : a = b := by
  cases a
  cases b
  cases h
  rfl

theorem listStartsWith_append_slash (A : List Char) :
    ∀ (B I : List Char), ¬ '/' ∈ A → ¬ '/' ∈ B →
    listStartsWith (A ++ ['/']) (B ++ '/' :: I) = true → A = B := by
  induction A with
  | nil =>
    intro B I _ hB h
    cases B with
    | nil => rfl
    | cons b B' =>
      exfalso
      simp only [List.nil_append, List.cons_append, listStartsWith, Bool.and_eq_true,
        beq_iff_eq] at h
      exact hB (h.1 ▸ List.mem_cons_self b B')
  | cons a A' ih =>
    intro B I hA hB h
    cases B with
    | nil =>
      exfalso
      simp only [List.cons_append, List.nil_append, listStartsWith, Bool.and_eq_true,
        beq_iff_eq] at h
      exact hA (h.1 ▸ List.mem_cons_self a A')
    | cons b B' =>
      simp only [List.cons_append, listStartsWith, Bool.and_eq_true, beq_iff_eq] at h
      have hA' : ¬ '/' ∈ A' := fun hx => hA (List.mem_cons_of_mem a hx)
      have hB' : ¬ '/' ∈ B' := fun hx => hB (List.mem_cons_of_mem b hx)
      rw [h.1, ih B' I hA' hB' h.2]

theorem under_keep_data (keep tail : String) :
    (keep ++ "/" ++ tail).data = keep.data ++ '/' :: tail.data := by
  rw [String.data_append, String.data_append, List.append_assoc]
  rfl

theorem removeDirAll_isFile_under_keep (fs : Fs) (e keep tail : String)
    (hek : e ≠ keep) (hse : ¬ '/' ∈ e.data) (hsk : ¬ '/' ∈ keep.data) :
    (removeDirAll fs e).isFile (keep ++ "/" ++ tail) = fs.isFile (keep ++ "/" ++ tail) := by
  unfold removeDirAll
  by_cases hrf : fs.removeFails e = true
  · rw [if_pos hrf]
  · rw [if_neg hrf]
    have h1 : ((keep ++ "/" ++ tail) == e) = false := by
      refine beq_eq_false_iff_ne.mpr (fun hpe => hse ?_)
      rw [← hpe, under_keep_data]
      exact List.mem_append_right keep.data (List.mem_cons_self '/' tail.data)
    have h2 : listStartsWith (e.data ++ ['/']) (keep ++ "/" ++ tail).data = false := by
      cases hb : listStartsWith (e.data ++ ['/']) (keep ++ "/" ++ tail).data with
      | false => rfl
      | true =>
        exfalso
        rw [under_keep_data] at hb
        exact hek (string_data_inj (listStartsWith_append_slash e.data keep.data
          tail.data hse hsk hb))
    simp only [h1, h2, Bool.or_self, Bool.false_eq_true, if_false]

theorem cleanLoop_isFile_under_keep (keep tail : String) (l : List String) :
    ∀ fs : Fs, ¬ '/' ∈ keep.data → (∀ e ∈ l, ¬ '/' ∈ e.data) →
    (cleanLoop keep l fs).1.isFile (keep ++ "/" ++ tail) =
      fs.isFile (keep ++ "/" ++ tail) := by
  induction l with
  | nil => intro fs _ _; rfl
  | cons e rest ih =>
    intro fs hsk hl
    have hse : ¬ '/' ∈ e.data := hl e (List.mem_cons_self e rest)
    have hrest : ∀ x ∈ rest, ¬ '/' ∈ x.data := fun x hx => hl x (List.mem_cons_of_mem e hx)
    cases hle : fs.entryLoadFails e with
    | some err => simp only [cleanLoop, hle]
    | none =>
      simp only [cleanLoop, hle]
      by_cases hk : (e == keep) = true
      · rw [if_pos hk]
        exact ih fs hsk hrest
      · rw [if_neg hk]
        rw [ih (removeDirAll fs e) hsk hrest]
        exact removeDirAll_isFile_under_keep fs e keep tail
          (by simpa [beq_iff_eq] using hk) hse hsk

theorem clean_isFile_under_keep (keep tail : String) (fs : Fs)
    (hsk : ¬ '/' ∈ keep.data) (hents : ∀ e ∈ fs.rootEntries, ¬ '/' ∈ e.data) :
    (clean_other_installations keep fs).1.isFile (keep ++ "/" ++ tail) =
      fs.isFile (keep ++ "/" ++ tail) := by
  unfold clean_other_installations
  cases hrd : fs.readDirFails with
  | some err => rfl
  | none => exact cleanLoop_isFile_under_keep keep tail fs.rootEntries fs hsk hents

theorem cacheLookup_eq_some (self : TyposExtension) (fs : Fs) (path : String)
    (h : cacheLookup self fs = some path) :
    self.cached_binary_path = some path ∧ fs.isFile path = true := by
  cases hc : self.cached_binary_path with
  | none =>
    simp only [cacheLookup, hc] at h
    exact absurd h (by simp)
  | some q =>
    simp only [cacheLookup, hc] at h
    cases hf : fs.isFile q with
    | false => simp [hf] at h
    | true =>
      simp only [hf, if_true] at h
      injection h with h
      subst h
      exact ⟨rfl, hf⟩

theorem version_dir_no_slash (version : String) (hv : ¬ '/' ∈ version.data) :
    ¬ '/' ∈ ("typos-lsp-" ++ version).data := by
  rw [String.data_append]
  intro h
  cases List.mem_append.mp h with
  | inl h => exact absurd h (by decide)
  | inr h => exact hv h

/-- After a successful `language_server_binary` call with no PATH binary, the
cached path equals the returned path and (under the download primitive's
contract that extraction materializes the binary inside the version
directory, with slash-free entry and version names) the returned path still
names a file. -/
theorem lsb_success_cache (env : Env) (self : TyposExtension) (fs : Fs) (b : TyposBinary)
    (hw : env.which_typos_lsp = none)
    (hdl : ∀ url dir kind f g, env.downloadFile url dir kind f = (g, none) →
      g.isFile (dir ++ "/" ++ binary_path_within_archive env.platform env.architecture) =
        true ∧
      ∀ e ∈ g.rootEntries, ¬ '/' ∈ e.data)
    (hver : ∀ rel, env.releaseResult = Except.ok rel → ¬ '/' ∈ rel.version.data)
    (hres : (language_server_binary env self fs).result = Except.ok b) :
    (language_server_binary env self fs).state.cached_binary_path = some b.path ∧
    (language_server_binary env self fs).fs.isFile b.path = true := by
  cases hm : cacheLookup self fs with
  | some path =>
    obtain ⟨hc, hfl⟩ := cacheLookup_eq_some self fs path hm
    rw [lsb_cache_hit_eq env self fs path hw hm] at hres ⊢
    injection hres with hres
    subst hres
    exact ⟨hc, hfl⟩
  | none =>
    cases hr : env.releaseResult with
    | error e =>
      rw [lsb_release_error_eq env self fs e hw hm hr] at hres
      cases hres
    | ok rel =>
      cases hf : rel.assets.find? (fun asset =>
          asset.name == binary_release_name rel.version env.platform env.architecture) with
      | none =>
        rw [lsb_no_asset_eq env self fs rel hw hm hr hf] at hres
        cases hres
      | some asset =>
        cases hfile : fs.isFile ("typos-lsp-" ++ rel.version ++ "/" ++
            binary_path_within_archive env.platform env.architecture) with
        | true =>
          rw [lsb_skip_eq env self fs rel asset hw hm hr hf hfile] at hres ⊢
          injection hres with hres
          subst hres
          exact ⟨rfl, hfile⟩
        | false =>
          cases hd : env.downloadFile asset.download_url ("typos-lsp-" ++ rel.version)
              (file_kind env.platform) fs with
          | mk fs2 r =>
            cases r with
            | some e =>
              rw [lsb_download_error_eq env self fs rel asset fs2 e
                hw hm hr hf hfile hd] at hres
              cases hres
            | none =>
              cases hc : clean_other_installations ("typos-lsp-" ++ rel.version) fs2 with
              | mk fs3 r2 =>
                cases r2 with
                | some e =>
                  rw [lsb_clean_error_eq env self fs rel asset fs2 fs3 e
                    hw hm hr hf hfile hd hc] at hres
                  cases hres
                | none =>
                  rw [lsb_full_success_eq env self fs rel asset fs2 fs3
                    hw hm hr hf hfile hd hc] at hres ⊢
                  injection hres with hres
                  subst hres
                  refine ⟨rfl, ?_⟩
                  obtain ⟨hisf, hents⟩ := hdl asset.download_url ("typos-lsp-" ++ rel.version)
                    (file_kind env.platform) fs fs2 hd
                  have hsk : ¬ '/' ∈ ("typos-lsp-" ++ rel.version).data :=
                    version_dir_no_slash rel.version (hver rel hr)
                  have hpres := clean_isFile_under_keep ("typos-lsp-" ++ rel.version)
                    (binary_path_within_archive env.platform env.architecture) fs2 hsk hents
                  rw [hc] at hpres
                  exact hpres.trans hisf

/-- Claim C4: resolution is idempotent across a successful call: with no PATH
binary and no external filesystem change between the calls (the second call
receives exactly the state and filesystem produced by the first), and under
the download primitive's contract that a successful download materializes the
binary inside the version directory (with slash-free entry and version
names), a second call returns the same binary path, leaves state and
filesystem untouched, and performs no network access (its event trace is
empty: it is served from the cache). -/
theorem language_server_binary_idempotent (env : Env) (self : TyposExtension) (fs : Fs)
    (b : TyposBinary)
    (hw : env.which_typos_lsp = none)
    (hdl : ∀ url dir kind f g, env.downloadFile url dir kind f = (g, none) →
      g.isFile (dir ++ "/" ++ binary_path_within_archive env.platform env.architecture) =
        true ∧
      ∀ e ∈ g.rootEntries, ¬ '/' ∈ e.data)
    (hver : ∀ rel, env.releaseResult = Except.ok rel → ¬ '/' ∈ rel.version.data)
    (h1 : (language_server_binary env self fs).result = Except.ok b) :
    language_server_binary env (language_server_binary env self fs).state
        (language_server_binary env self fs).fs =
      ⟨Except.ok ⟨b.path, some []⟩, (language_server_binary env self fs).state,
       (language_server_binary env self fs).fs, []⟩ := by
  obtain ⟨hcache, hfl⟩ := lsb_success_cache env self fs b hw hdl hver h1
  exact lsb_cache_hit_eq env _ _ b.path hw (cacheLookup_some _ _ b.path hcache hfl)

def envC4 : Env :=
  ⟨none, Os.mac, Architecture.aarch64,
   Except.ok ⟨"v1", [⟨"typos-lsp-v1-aarch64-apple-darwin.tar.gz", "https://u"⟩]⟩,
   fun _ dir _ f =>
     ({f with
        isFile := fun p =>
          p == dir ++ "/" ++ binary_path_within_archive Os.mac Architecture.aarch64,
        rootEntries := ["typos-lsp-v1"]}, none)⟩

theorem language_server_binary_idempotent_witness :
    language_server_binary envC4 (language_server_binary envC4 ⟨none⟩ fsEmpty).state
        (language_server_binary envC4 ⟨none⟩ fsEmpty).fs =
      ⟨Except.ok ⟨"typos-lsp-v1/typos-lsp", some []⟩,
       (language_server_binary envC4 ⟨none⟩ fsEmpty).state,
       (language_server_binary envC4 ⟨none⟩ fsEmpty).fs, []⟩ :=
  language_server_binary_idempotent envC4 ⟨none⟩ fsEmpty
    ⟨"typos-lsp-v1/typos-lsp", some []⟩ rfl
    (by
      intro url dir kind f g h
      injection h with h1 _
      subst h1
      refine ⟨by simp [envC4], fun e he => ?_⟩
      simp only [List.mem_singleton] at he
      subst he
      decide)
    (by
      intro rel h
      injection h with h
      subst h
      decide)
    rfl

/-- Claim C9: in any single call, the cached binary path is either left
exactly as it was, or it is overwritten with the successfully returned path,
which (under the download primitive's contract that extraction materializes
the binary inside the version directory) names a file on disk at the moment
it is stored; the cache is never cleared or otherwise invalidated, so
staleness can only surface through the existence check on a later read. -/
theorem cached_binary_path_validity (env : Env) (self : TyposExtension) (fs : Fs)
    (hdl : ∀ url dir kind f g, env.downloadFile url dir kind f = (g, none) →
      g.isFile (dir ++ "/" ++ binary_path_within_archive env.platform env.architecture) =
        true ∧
      ∀ e ∈ g.rootEntries, ¬ '/' ∈ e.data)
    (hver : ∀ rel, env.releaseResult = Except.ok rel → ¬ '/' ∈ rel.version.data) :
    (language_server_binary env self fs).state.cached_binary_path =
        self.cached_binary_path ∨
    (∃ p, (language_server_binary env self fs).state.cached_binary_path = some p ∧
      (language_server_binary env self fs).fs.isFile p = true ∧
      (language_server_binary env self fs).result = Except.ok ⟨p, some []⟩) := by
  cases hw : env.which_typos_lsp with
  | some path =>
    rw [lsb_which_eq env self fs path hw]
    exact Or.inl rfl
  | none =>
    cases hm : cacheLookup self fs with
    | some path =>
      rw [lsb_cache_hit_eq env self fs path hw hm]
      exact Or.inl rfl
    | none =>
      cases hr : env.releaseResult with
      | error e =>
        rw [lsb_release_error_eq env self fs e hw hm hr]
        exact Or.inl rfl
      | ok rel =>
        cases hf : rel.assets.find? (fun asset =>
            asset.name == binary_release_name rel.version env.platform
              env.architecture) with
        | none =>
          rw [lsb_no_asset_eq env self fs rel hw hm hr hf]
          exact Or.inl rfl
        | some asset =>
          cases hfile : fs.isFile ("typos-lsp-" ++ rel.version ++ "/" ++
              binary_path_within_archive env.platform env.architecture) with
          | true =>
            have hres : (language_server_binary env self fs).result =
                Except.ok ⟨"typos-lsp-" ++ rel.version ++ "/" ++
                  binary_path_within_archive env.platform env.architecture, some []⟩ := by
              rw [lsb_skip_eq env self fs rel asset hw hm hr hf hfile]
            obtain ⟨hcache, hfl⟩ := lsb_success_cache env self fs _ hw hdl hver hres
            exact Or.inr ⟨_, hcache, hfl, hres⟩
          | false =>
            cases hd : env.downloadFile asset.download_url ("typos-lsp-" ++ rel.version)
                (file_kind env.platform) fs with
            | mk fs2 r =>
              cases r with
              | some e =>
                rw [lsb_download_error_eq env self fs rel asset fs2 e hw hm hr hf hfile hd]
                exact Or.inl rfl
              | none =>
                cases hc : clean_other_installations ("typos-lsp-" ++ rel.version) fs2 with
                | mk fs3 r2 =>
                  cases r2 with
                  | some e =>
                    rw [lsb_clean_error_eq env self fs rel asset fs2 fs3 e
                      hw hm hr hf hfile hd hc]
                    exact Or.inl rfl
                  | none =>
                    have hres : (language_server_binary env self fs).result =
                        Except.ok ⟨"typos-lsp-" ++ rel.version ++ "/" ++
                          binary_path_within_archive env.platform env.architecture,
                          some []⟩ := by
                      rw [lsb_full_success_eq env self fs rel asset fs2 fs3
                        hw hm hr hf hfile hd hc]
                    obtain ⟨hcache, hfl⟩ := lsb_success_cache env self fs _ hw hdl hver hres
                    exact Or.inr ⟨_, hcache, hfl, hres⟩

def envC9 : Env :=
  ⟨some "/usr/bin/typos-lsp", Os.mac, Architecture.aarch64, Except.error "offline",
   fun _ _ _ f => (f, some "offline")⟩

theorem cached_binary_path_validity_witness :
    (language_server_binary envC9 ⟨some "/stale"⟩ fsEmpty).state.cached_binary_path =
        (⟨some "/stale"⟩ : TyposExtension).cached_binary_path ∨
    (∃ p, (language_server_binary envC9 ⟨some "/stale"⟩ fsEmpty).state.cached_binary_path =
        some p ∧
      (language_server_binary envC9 ⟨some "/stale"⟩ fsEmpty).fs.isFile p = true ∧
      (language_server_binary envC9 ⟨some "/stale"⟩ fsEmpty).result =
        Except.ok ⟨p, some []⟩) :=
  cached_binary_path_validity envC9 ⟨some "/stale"⟩ fsEmpty
    (by intro url dir kind f g h; simp [envC9] at h)
    (by intro rel h; cases h)

/-- Claim C10: `language_server_initialization_options` and
`language_server_workspace_configuration` never return an error: whatever the
settings provider returns, each yields `Ok (Some v)`, where `v` is the
provider's corresponding field when the provider succeeded and the field is
present, and the default (null) value otherwise — a provider failure is
silently swallowed rather than propagated. -/
theorem settings_pass_through_total :
    (∀ forWorktree : Except String LspSettings,
      ∃ v w, language_server_initialization_options forWorktree = Except.ok (some v) ∧
        language_server_workspace_configuration forWorktree = Except.ok (some w)) ∧
    (∀ (s : LspSettings) (v : JsonValue), s.initialization_options = some v →
      language_server_initialization_options (Except.ok s) = Except.ok (some v)) ∧
    (∀ (s : LspSettings) (v : JsonValue), s.settings = some v →
      language_server_workspace_configuration (Except.ok s) = Except.ok (some v)) ∧
    (∀ s : LspSettings, s.initialization_options = none →
      language_server_initialization_options (Except.ok s) =
        Except.ok (some JsonValue.null)) ∧
    (∀ s : LspSettings, s.settings = none →
      language_server_workspace_configuration (Except.ok s) =
        Except.ok (some JsonValue.null)) ∧
    (∀ e : String,
      language_server_initialization_options (Except.error e) =
        Except.ok (some JsonValue.null) ∧
      language_server_workspace_configuration (Except.error e) =
        Except.ok (some JsonValue.null)) := by
  refine ⟨fun forWorktree => ⟨_, _, rfl, rfl⟩,
    fun s v h => ?_, fun s v h => ?_, fun s h => ?_, fun s h => ?_,
    fun e => ⟨rfl, rfl⟩⟩ <;>
    simp [language_server_initialization_options,
      language_server_workspace_configuration, Except.toOption, h]

theorem settings_pass_through_total_witness :
    (∃ v w,
      language_server_initialization_options
          (Except.ok ⟨some (JsonValue.bool true), none⟩) = Except.ok (some v) ∧
      language_server_workspace_configuration
          (Except.ok ⟨some (JsonValue.bool true), none⟩) = Except.ok (some w)) ∧
    language_server_initialization_options
        (Except.ok ⟨some (JsonValue.bool true), none⟩) =
      Except.ok (some (JsonValue.bool true)) ∧
    language_server_workspace_configuration
        (Except.ok ⟨none, some (JsonValue.str "cfg")⟩) =
      Except.ok (some (JsonValue.str "cfg")) ∧
    language_server_initialization_options
        (Except.ok ⟨none, some (JsonValue.str "cfg")⟩) =
      Except.ok (some JsonValue.null) ∧
    language_server_workspace_configuration
        (Except.ok ⟨some (JsonValue.bool true), none⟩) =
      Except.ok (some JsonValue.null) ∧
    (language_server_initialization_options (Except.error "provider failed") =
        Except.ok (some JsonValue.null) ∧
      language_server_workspace_configuration (Except.error "provider failed") =
        Except.ok (some JsonValue.null)) :=
  ⟨settings_pass_through_total.1 (Except.ok ⟨some (JsonValue.bool true), none⟩),
   settings_pass_through_total.2.1 ⟨some (JsonValue.bool true), none⟩
     (JsonValue.bool true) rfl,
   settings_pass_through_total.2.2.1 ⟨none, some (JsonValue.str "cfg")⟩
     (JsonValue.str "cfg") rfl,
   settings_pass_through_total.2.2.2.1 ⟨none, some (JsonValue.str "cfg")⟩ rfl,
   settings_pass_through_total.2.2.2.2.1 ⟨some (JsonValue.bool true), none⟩ rfl,
   settings_pass_through_total.2.2.2.2.2 "provider failed"⟩
